import Mathlib

/-!
Verification of the git-repos-tree CLI against its specification.

The definitions below are a shallow embedding of the TypeScript sources:
`src/types.ts` (data model), `src/repo_tree.ts` (`getItemInfoTree`, the
Tree Builder, and the display phase of `showRepositoryTree`),
`src/format.ts` (`displayItemInfoTree` and the formatting helpers),
`src/git.ts` (`testGitRepository`) and `src/src/git.ts`
(`GitService.getGitStatus`).  External collaborators (filesystem, process
runner) are modelled as explicit data / function parameters, matching the
interfaces in `src/src/file_system.ts` and `src/src/command_runner.ts`.
-/

namespace RepoTree

/-- Item kinds, from `ItemType` in `src/types.ts`. -/
inductive ItemType where
  | File
  | Directory
  | RepoDirectory
  | Unknown
deriving DecidableEq, Repr

/-- Git status record attached to repository nodes, from the `GitStatus`
interface in `src/repo_tree.ts` (fields `aheadBy` and `hasWorkingChanges`;
these are also the only fields the renderer in `src/format.ts` reads). -/
structure GitStatus where
  aheadBy : Nat
  hasWorkingChanges : Bool
deriving DecidableEq, Repr

/-- A node of the built tree, from the `ItemInfo` interface in
`src/types.ts`.  The optional `isDirectory?: boolean` field is modelled as
`Option Bool`; the builder never assigns it, so built nodes carry `none`
(JavaScript `undefined`). -/
structure ItemInfo where
  name : String
  type : ItemType
  isDirectory : Option Bool
  children : List ItemInfo
  allPathsLeadToRepo : Bool
  containsRepo : Bool
  gitStatus : Option GitStatus

/-- Abstract filesystem entry, the environment the Tree Builder walks.
A `dir` carries the observations the builder would make about it:
`isGitRepo` is the result of the `testGitRepository` probe on the
directory's path, `status` is the value `getGitStatus` would return for it
(that function catches all of its own errors, so it always yields a
value), and `listing` is the result of `readDir` — `none` models a listing
error (permission denied or other), which `getItemInfoTree` catches and
treats as "no children". -/
inductive FsEntry where
  | file (name : String)
  | dir (name : String) (isGitRepo : Bool) (status : GitStatus)
      (listing : Option (List FsEntry))

/-- Name of an entry (`entry.name` of the `WalkEntry`). -/
def FsEntry.name : FsEntry → String
  | .file n => n
  | .dir n _ _ _ => n

/-- Whether the entry is a directory (`entry.isDirectory`). -/
def FsEntry.isDirectory : FsEntry → Bool
  | .file _ => false
  | .dir _ _ _ _ => true

/-- The git status the environment would report for the entry. -/
def FsEntry.status : FsEntry → Option GitStatus
  | .file _ => none
  | .dir _ _ st _ => some st

/-- Character-list core of `jsStartsWith`: does the first list occur at the
front of the second? -/
def charsMatchFront : List Char → List Char → Bool
  | [], _ => true
  | _ :: _, [] => false
  | p :: ps, c :: cs => p == c && charsMatchFront ps cs

/-- Model of JavaScript `String.prototype.startsWith`, computed on the
character list so that concrete inputs reduce in the kernel. -/
def jsStartsWith (s pat : String) : Bool := charsMatchFront pat.data s.data

/-- Translation of `getItemType` in `src/repo_tree.ts`: a directory is a
`RepoDirectory` when the `.git` probe succeeds, else a `Directory`; every
non-directory is a `File`. -/
def getItemType : FsEntry → ItemType
  | .file _ => ItemType.File
  | .dir _ isGitRepo _ _ =>
      if isGitRepo then ItemType.RepoDirectory else ItemType.Directory

/-- The `itemInfo` value as first constructed by `getItemInfoTree`
(`src/repo_tree.ts` lines 130–141): empty children, `allPathsLeadToRepo`
initialised to `type === ItemType.RepoDirectory`, `containsRepo` false,
and `gitStatus` fetched exactly when the node is a `RepoDirectory`. -/
def initialItemInfo (e : FsEntry) : ItemInfo :=
  { name := e.name
    type := getItemType e
    isDirectory := none
    children := []
    allPathsLeadToRepo := decide (getItemType e = ItemType.RepoDirectory)
    containsRepo := false
    gitStatus :=
      if getItemType e = ItemType.RepoDirectory then e.status else none }

/-- One iteration of the child loop in `getItemInfoTree`
(`src/repo_tree.ts` lines 173–182): push the child, poison
`allPathsLeadToRepo` when the child's flag is false, and set
`containsRepo` when the child is a `RepoDirectory`. -/
def addChild (acc ci : ItemInfo) : ItemInfo :=
  { acc with
    children := acc.children ++ [ci]
    allPathsLeadToRepo :=
      if ci.allPathsLeadToRepo then acc.allPathsLeadToRepo else false
    containsRepo :=
      if ci.type = ItemType.RepoDirectory then true else acc.containsRepo }

/-- The whole child loop, folded over the already-built children in
listing order. -/
def processChildren (acc : ItemInfo) (cis : List ItemInfo) : ItemInfo :=
  cis.foldl addChild acc

mutual

/-- Translation of `getItemInfoTree` in `src/repo_tree.ts`: classify the
entry, prune when the directory name is in the skip set or the depth limit
is reached, otherwise recurse into the listing (hidden names filtered
unless `includeHidden`) and aggregate the two boolean flags child by
child.  A `none` listing models the caught `readDir` error, which leaves
the node childless. -/
def getItemInfoTree (e : FsEntry) (currentDepth maxDepth : Nat)
    (skipDirectoriesSet : List String) (includeHidden : Bool) : ItemInfo :=
  match e with
  | .file name => initialItemInfo (.file name)
  | .dir name isGitRepo st listing =>
    let info := initialItemInfo (.dir name isGitRepo st listing)
    if name ∈ skipDirectoriesSet ∨ maxDepth ≤ currentDepth then info
    else
      match listing with
      | none => info
      | some entries =>
          processChildren info
            (childItemInfos entries (currentDepth + 1) maxDepth
              skipDirectoriesSet includeHidden)

/-- The recursive calls of the child loop: each listed entry whose name is
not hidden-filtered is built at depth `currentDepth + 1`, in listing
order. -/
def childItemInfos (entries : List FsEntry) (depth maxDepth : Nat)
    (skipDirectoriesSet : List String) (includeHidden : Bool) :
    List ItemInfo :=
  match entries with
  | [] => []
  | c :: rest =>
    if !includeHidden && jsStartsWith c.name "." then
      childItemInfos rest depth maxDepth skipDirectoriesSet includeHidden
    else
      getItemInfoTree c depth maxDepth skipDirectoriesSet includeHidden ::
        childItemInfos rest depth maxDepth skipDirectoriesSet includeHidden

end

/-- Folding one more child first is the same as starting from the updated
accumulator. -/
theorem processChildren_cons (acc ci : ItemInfo) (rest : List ItemInfo) :
    processChildren acc (ci :: rest) = processChildren (addChild acc ci) rest :=
  rfl

/-- The child loop never touches the node's name. -/
theorem processChildren_name (acc : ItemInfo) (cis : List ItemInfo) :
    (processChildren acc cis).name = acc.name := by
  induction cis generalizing acc with
  | nil => rfl
  | cons ci rest ih => rw [processChildren_cons, ih]; rfl

/-- The child loop never touches the node's type. -/
theorem processChildren_type (acc : ItemInfo) (cis : List ItemInfo) :
    (processChildren acc cis).type = acc.type := by
  induction cis generalizing acc with
  | nil => rfl
  | cons ci rest ih => rw [processChildren_cons, ih]; rfl

/-- The child loop never touches the optional `isDirectory` field. -/
theorem processChildren_isDirectory (acc : ItemInfo) (cis : List ItemInfo) :
    (processChildren acc cis).isDirectory = acc.isDirectory := by
  induction cis generalizing acc with
  | nil => rfl
  | cons ci rest ih => rw [processChildren_cons, ih]; rfl

/-- The child loop never touches the node's git status. -/
theorem processChildren_gitStatus (acc : ItemInfo) (cis : List ItemInfo) :
    (processChildren acc cis).gitStatus = acc.gitStatus := by
  induction cis generalizing acc with
  | nil => rfl
  | cons ci rest ih => rw [processChildren_cons, ih]; rfl

/-- The child loop appends the built children, in order. -/
theorem processChildren_children (acc : ItemInfo) (cis : List ItemInfo) :
    (processChildren acc cis).children = acc.children ++ cis := by
  induction cis generalizing acc with
  | nil => simp [processChildren]
  | cons ci rest ih =>
    rw [processChildren_cons, ih]
    simp [addChild]

/-- One loop iteration combines `allPathsLeadToRepo` by conjunction. -/
theorem addChild_allPathsLeadToRepo (acc ci : ItemInfo) :
    (addChild acc ci).allPathsLeadToRepo =
      (acc.allPathsLeadToRepo && ci.allPathsLeadToRepo) := by
  cases hc : ci.allPathsLeadToRepo <;> simp [addChild, hc]

/-- The loop's aggregation of `allPathsLeadToRepo` is a conjunction over
the children of the initial value of the flag. -/
theorem processChildren_allPathsLeadToRepo (acc : ItemInfo)
    (cis : List ItemInfo) :
    (processChildren acc cis).allPathsLeadToRepo =
      (acc.allPathsLeadToRepo && cis.all (·.allPathsLeadToRepo)) := by
  induction cis generalizing acc with
  | nil => simp [processChildren]
  | cons ci rest ih =>
    rw [processChildren_cons, ih, addChild_allPathsLeadToRepo]
    simp [Bool.and_assoc]

/-- One loop iteration combines `containsRepo` by disjunction with "the
child is a repository". -/
theorem addChild_containsRepo (acc ci : ItemInfo) :
    (addChild acc ci).containsRepo =
      (acc.containsRepo || decide (ci.type = ItemType.RepoDirectory)) := by
  by_cases hc : ci.type = ItemType.RepoDirectory <;> simp [addChild, hc]

/-- The loop's aggregation of `containsRepo` is a disjunction over the
children being repositories. -/
theorem processChildren_containsRepo (acc : ItemInfo) (cis : List ItemInfo) :
    (processChildren acc cis).containsRepo =
      (acc.containsRepo ||
        cis.any (fun c => decide (c.type = ItemType.RepoDirectory))) := by
  induction cis generalizing acc with
  | nil => simp [processChildren]
  | cons ci rest ih =>
    rw [processChildren_cons, ih, addChild_containsRepo]
    simp [Bool.or_assoc]

/-- A built node keeps the entry's name. -/
theorem getItemInfoTree_name (e : FsEntry) (cur m : Nat) (s : List String)
    (h : Bool) : (getItemInfoTree e cur m s h).name = e.name := by
  cases e with
  | file n => rfl
  | dir n p st listing =>
    simp only [getItemInfoTree.eq_def]
    split
    · rfl
    · cases listing with
      | none => rfl
      | some entries => rw [processChildren_name]; rfl

/-- A built node's type is the classification of the entry. -/
theorem getItemInfoTree_type (e : FsEntry) (cur m : Nat) (s : List String)
    (h : Bool) : (getItemInfoTree e cur m s h).type = getItemType e := by
  cases e with
  | file n => rfl
  | dir n p st listing =>
    simp only [getItemInfoTree.eq_def]
    split
    · rfl
    · cases listing with
      | none => rfl
      | some entries => rw [processChildren_type]; rfl

/-- The builder never assigns the optional `isDirectory` field. -/
theorem getItemInfoTree_isDirectory (e : FsEntry) (cur m : Nat)
    (s : List String) (h : Bool) :
    (getItemInfoTree e cur m s h).isDirectory = none := by
  cases e with
  | file n => rfl
  | dir n p st listing =>
    simp only [getItemInfoTree.eq_def]
    split
    · rfl
    · cases listing with
      | none => rfl
      | some entries => rw [processChildren_isDirectory]; rfl

/-- A built node carries a git status exactly when it is a repository. -/
theorem getItemInfoTree_gitStatus (e : FsEntry) (cur m : Nat)
    (s : List String) (h : Bool) :
    (getItemInfoTree e cur m s h).gitStatus =
      (if getItemType e = ItemType.RepoDirectory then e.status else none) := by
  cases e with
  | file n => rfl
  | dir n p st listing =>
    simp only [getItemInfoTree.eq_def]
    split
    · rfl
    · cases listing with
      | none => rfl
      | some entries => rw [processChildren_gitStatus]; rfl

/-- A pruned directory (skip-set hit or depth limit reached) is returned
immediately, with no children. -/
theorem getItemInfoTree_pruned (n : String) (p : Bool) (st : GitStatus)
    (listing : Option (List FsEntry)) (cur m : Nat) (s : List String)
    (h : Bool) (hp : n ∈ s ∨ m ≤ cur) :
    getItemInfoTree (.dir n p st listing) cur m s h =
      initialItemInfo (.dir n p st listing) := by
  simp only [getItemInfoTree.eq_def]
  rw [if_pos hp]

/-- The children of a built node, by cases on the entry. -/
theorem getItemInfoTree_children_listing (n : String) (p : Bool)
    (st : GitStatus) (entries : List FsEntry) (cur m : Nat)
    (s : List String) (h : Bool) (hp : ¬(n ∈ s ∨ m ≤ cur)) :
    (getItemInfoTree (.dir n p st (some entries)) cur m s h).children =
      childItemInfos entries (cur + 1) m s h := by
  simp only [getItemInfoTree.eq_def]
  rw [if_neg hp, processChildren_children]
  simp [initialItemInfo]

/-- Unfolding equation: no listed entries, no children. -/
theorem childItemInfos_nil (d m : Nat) (s : List String) (h : Bool) :
    childItemInfos [] d m s h = [] := by
  rw [childItemInfos.eq_def]

/-- Unfolding equation for one listed entry: hidden names are filtered when
`includeHidden` is off, every other entry is built recursively. -/
theorem childItemInfos_cons (e : FsEntry) (rest : List FsEntry) (d m : Nat)
    (s : List String) (h : Bool) :
    childItemInfos (e :: rest) d m s h =
      if !h && jsStartsWith e.name "." then
        childItemInfos rest d m s h
      else
        getItemInfoTree e d m s h :: childItemInfos rest d m s h := by
  rw [childItemInfos.eq_def]

/-- Every element of `childItemInfos` is itself a built tree, one level
deeper. -/
theorem mem_childItemInfos {c : ItemInfo} (es : List FsEntry) (d m : Nat)
    (s : List String) (h : Bool) (hc : c ∈ childItemInfos es d m s h) :
    ∃ e1, c = getItemInfoTree e1 d m s h := by
  induction es with
  | nil =>
    rw [childItemInfos_nil] at hc
    simp at hc
  | cons e rest ih =>
    rw [childItemInfos_cons] at hc
    split at hc
    · exact ih hc
    · rcases List.mem_cons.mp hc with h1 | h1
      · exact ⟨e, h1⟩
      · exact ih h1

/-- Every child of a built node is itself a built tree, one level
deeper. -/
theorem mem_children_getItemInfoTree {c : ItemInfo} (e : FsEntry)
    (cur m : Nat) (s : List String) (h : Bool)
    (hc : c ∈ (getItemInfoTree e cur m s h).children) :
    ∃ e1, c = getItemInfoTree e1 (cur + 1) m s h := by
  cases e with
  | file n => simp [getItemInfoTree, initialItemInfo] at hc
  | dir n p st listing =>
    by_cases hp : n ∈ s ∨ m ≤ cur
    · rw [getItemInfoTree_pruned n p st listing cur m s h hp] at hc
      simp [initialItemInfo] at hc
    · cases listing with
      | none =>
        simp only [getItemInfoTree.eq_def] at hc
        rw [if_neg hp] at hc
        simp [initialItemInfo] at hc
      | some entries =>
        rw [getItemInfoTree_children_listing n p st entries cur m s h hp] at hc
        exact mem_childItemInfos entries (cur + 1) m s h hc

/-- Occurrence of a node at a given depth inside a built tree: `SubnodeAt
root k n` holds when `n` is reached from `root` through `k` successive
`children` steps (`k = 0` is the root itself). -/
inductive SubnodeAt : ItemInfo → Nat → ItemInfo → Prop where
  | here (i : ItemInfo) : SubnodeAt i 0 i
  | child {i c n : ItemInfo} {k : Nat} (hc : c ∈ i.children)
      (hn : SubnodeAt c k n) : SubnodeAt i (k + 1) n

/-- Auxiliary form of `subnodeAt_build` with the root equation explicit. -/
theorem subnodeAt_build_aux {root n : ItemInfo} {k : Nat}
    (hs : SubnodeAt root k n) :
    ∀ e cur m s h, root = getItemInfoTree e cur m s h →
      ∃ e1, n = getItemInfoTree e1 (cur + k) m s h := by
  induction hs with
  | here i =>
    intro e cur m s h hr
    exact ⟨e, by simpa using hr⟩
  | child hc hn ih =>
    intro e cur m s h hr
    subst hr
    obtain ⟨e1, he1⟩ := mem_children_getItemInfoTree e cur m s h hc
    obtain ⟨e2, he2⟩ := ih e1 (cur + 1) m s h he1
    refine ⟨e2, by rw [he2]; congr 1; omega⟩

/-- Every node of a built tree at depth `k` is itself a built tree, with
recursion depth advanced by `k`. -/
theorem subnodeAt_build {e : FsEntry} {cur m : Nat} {s : List String}
    {h : Bool} {k : Nat} {n : ItemInfo}
    (hs : SubnodeAt (getItemInfoTree e cur m s h) k n) :
    ∃ e1, n = getItemInfoTree e1 (cur + k) m s h :=
  subnodeAt_build_aux hs e cur m s h rfl

/-- In a built tree, `allPathsLeadToRepo` is exactly "the node is itself a
repository AND every child has the flag" — the loop can only lower the
initial value `type == RepoDirectory`. -/
theorem getItemInfoTree_allPathsLeadToRepo (e : FsEntry) (cur m : Nat)
    (s : List String) (h : Bool) :
    (getItemInfoTree e cur m s h).allPathsLeadToRepo =
      (decide (getItemType e = ItemType.RepoDirectory) &&
        (getItemInfoTree e cur m s h).children.all
          (·.allPathsLeadToRepo)) := by
  cases e with
  | file n => simp [getItemInfoTree, initialItemInfo, getItemType]
  | dir n p st listing =>
    by_cases hp : n ∈ s ∨ m ≤ cur
    · rw [getItemInfoTree_pruned n p st listing cur m s h hp]
      simp [initialItemInfo]
    · cases listing with
      | none =>
        simp only [getItemInfoTree.eq_def]
        rw [if_neg hp]
        simp [initialItemInfo]
      | some entries =>
        simp only [getItemInfoTree.eq_def]
        rw [if_neg hp]
        rw [processChildren_allPathsLeadToRepo, processChildren_children]
        simp [initialItemInfo]

/-- In a built tree, `containsRepo` is exactly "some direct child is a
repository" — the loop only ever inspects `childItemInfo.type`. -/
theorem getItemInfoTree_containsRepo (e : FsEntry) (cur m : Nat)
    (s : List String) (h : Bool) :
    (getItemInfoTree e cur m s h).containsRepo =
      (getItemInfoTree e cur m s h).children.any
        (fun c => decide (c.type = ItemType.RepoDirectory)) := by
  cases e with
  | file n => simp [getItemInfoTree, initialItemInfo]
  | dir n p st listing =>
    by_cases hp : n ∈ s ∨ m ≤ cur
    · rw [getItemInfoTree_pruned n p st listing cur m s h hp]
      simp [initialItemInfo]
    · cases listing with
      | none =>
        simp only [getItemInfoTree.eq_def]
        rw [if_neg hp]
        simp [initialItemInfo]
      | some entries =>
        simp only [getItemInfoTree.eq_def]
        rw [if_neg hp]
        rw [processChildren_containsRepo, processChildren_children]
        simp [initialItemInfo]

mutual

/-- Modelled from the spec: "containsRepo: true iff at least one descendant
(not including self) is a RepoDirectory".  This follows the spec's words,
for comparison with the `containsRepo` flag the code computes. -/
def descendantHasRepo : ItemInfo → Bool
  | ⟨_, _, _, cs, _, _, _⟩ => anyRepoWithin cs

/-- A repository among these nodes or any of their descendants. -/
def anyRepoWithin : List ItemInfo → Bool
  | [] => false
  | c :: rest =>
      (decide (c.type = ItemType.RepoDirectory) || descendantHasRepo c) ||
        anyRepoWithin rest

end

/-- Unfolding equation for `descendantHasRepo`. -/
theorem descendantHasRepo_eq (i : ItemInfo) :
    descendantHasRepo i = anyRepoWithin i.children := by
  cases i
  rw [descendantHasRepo.eq_def]

/-- Unfolding equation: an empty forest holds no repository. -/
theorem anyRepoWithin_nil : anyRepoWithin [] = false := by
  rw [anyRepoWithin.eq_def]

/-- Unfolding equation for a non-empty forest. -/
theorem anyRepoWithin_cons (c : ItemInfo) (rest : List ItemInfo) :
    anyRepoWithin (c :: rest) =
      ((decide (c.type = ItemType.RepoDirectory) || descendantHasRepo c) ||
        anyRepoWithin rest) := by
  rw [anyRepoWithin.eq_def]

/-- C1 counterexample: in the tree `a / b / c` where only the grandchild
`c` is a repository, `a` has a strict descendant of kind `RepoDirectory`
(the spec-modelled `descendantHasRepo` is true) yet the builder leaves
`a.containsRepo = false`, because the loop only inspects direct children's
`type` (`src/repo_tree.ts` lines 179–182) and never a child's own
`containsRepo`.  This refutes "containsRepo is true iff at least one
descendant of the node (at any depth) has kind RepoDirectory". -/
theorem c1_counterexample :
    descendantHasRepo
      (getItemInfoTree
        (FsEntry.dir "a" false ⟨0, false⟩
          (some [FsEntry.dir "b" false ⟨0, false⟩
            (some [FsEntry.dir "c" true ⟨0, false⟩ (some [])])]))
        0 10 [] false) = true ∧
    (getItemInfoTree
      (FsEntry.dir "a" false ⟨0, false⟩
        (some [FsEntry.dir "b" false ⟨0, false⟩
          (some [FsEntry.dir "c" true ⟨0, false⟩ (some [])])]))
      0 10 [] false).containsRepo = false := by
  constructor <;>
    simp +decide [getItemInfoTree, childItemInfos_cons, childItemInfos_nil,
      processChildren, addChild, initialItemInfo, getItemType, FsEntry.name,
      FsEntry.status, jsStartsWith, charsMatchFront, descendantHasRepo_eq,
      anyRepoWithin_cons, anyRepoWithin_nil]

/-- C1 (amended): in every tree produced by the Tree Builder, and for
every node in that tree, `containsRepo` is true if and only if at least
one DIRECT child of the node has kind `RepoDirectory`; a repository only
reachable two or more levels below the node does not set the flag. -/
theorem c1_containsRepo_iff_direct_child (e : FsEntry) (cur m : Nat)
    (s : List String) (h : Bool) (k : Nat) (n : ItemInfo)
    (hs : SubnodeAt (getItemInfoTree e cur m s h) k n) :
    n.containsRepo = true ↔
      ∃ c ∈ n.children, c.type = ItemType.RepoDirectory := by
  obtain ⟨e1, rfl⟩ := subnodeAt_build hs
  rw [getItemInfoTree_containsRepo]
  simp

/-- Witness: `c1_containsRepo_iff_direct_child` applied to a concrete
built tree (a directory with one repository child), at the root. -/
theorem c1_containsRepo_iff_direct_child_witness :
    (getItemInfoTree
        (FsEntry.dir "w1" false ⟨0, false⟩
          (some [FsEntry.dir "r" true ⟨0, false⟩ (some [])]))
        0 10 [] false).containsRepo = true ↔
      ∃ c ∈ (getItemInfoTree
        (FsEntry.dir "w1" false ⟨0, false⟩
          (some [FsEntry.dir "r" true ⟨0, false⟩ (some [])]))
        0 10 [] false).children, c.type = ItemType.RepoDirectory :=
  c1_containsRepo_iff_direct_child _ 0 10 [] false 0 _ (SubnodeAt.here _)

/-- C2 counterexample: a plain (non-repository) directory `a` whose only
child is a repository.  Every one of its children has
`allPathsLeadToRepo = true` (and every reachable leaf under `a` lies
inside a repository boundary), yet the builder reports
`a.allPathsLeadToRepo = false`, because the flag is initialised to
`type == RepoDirectory` (`src/repo_tree.ts` line 138) and children can
only lower it.  This refutes the claim's "in particular" clause. -/
theorem c2_counterexample :
    (getItemInfoTree
      (FsEntry.dir "a" false ⟨0, false⟩
        (some [FsEntry.dir "r" true ⟨0, false⟩ (some [])]))
      0 10 [] false).type = ItemType.Directory ∧
    (getItemInfoTree
      (FsEntry.dir "a" false ⟨0, false⟩
        (some [FsEntry.dir "r" true ⟨0, false⟩ (some [])]))
      0 10 [] false).children.all (·.allPathsLeadToRepo) = true ∧
    (getItemInfoTree
      (FsEntry.dir "a" false ⟨0, false⟩
        (some [FsEntry.dir "r" true ⟨0, false⟩ (some [])]))
      0 10 [] false).children.length = 1 ∧
    (getItemInfoTree
      (FsEntry.dir "a" false ⟨0, false⟩
        (some [FsEntry.dir "r" true ⟨0, false⟩ (some [])]))
      0 10 [] false).allPathsLeadToRepo = false := by
  refine ⟨?_, ?_, ?_, ?_⟩ <;>
    simp +decide [getItemInfoTree, childItemInfos_cons, childItemInfos_nil,
      processChildren, addChild, initialItemInfo, getItemType, FsEntry.name,
      FsEntry.status, jsStartsWith, charsMatchFront]

/-- C2 (amended): in every tree produced by the Tree Builder,
`allPathsLeadToRepo` of a node equals "the node itself is a
`RepoDirectory` AND every direct child has `allPathsLeadToRepo`"; a
non-repository directory never has the flag, no matter what its children
report. -/
theorem c2_allPaths_characterisation (e : FsEntry) (cur m : Nat)
    (s : List String) (h : Bool) (k : Nat) (n : ItemInfo)
    (hs : SubnodeAt (getItemInfoTree e cur m s h) k n) :
    n.allPathsLeadToRepo =
      (decide (n.type = ItemType.RepoDirectory) &&
        n.children.all (·.allPathsLeadToRepo)) := by
  obtain ⟨e1, rfl⟩ := subnodeAt_build hs
  rw [getItemInfoTree_allPathsLeadToRepo, getItemInfoTree_type]

/-- Witness: `c2_allPaths_characterisation` applied to a concrete built
tree at the root. -/
theorem c2_allPaths_characterisation_witness :
    (getItemInfoTree (FsEntry.dir "w2" true ⟨0, false⟩ (some []))
        0 10 [] false).allPathsLeadToRepo =
      (decide ((getItemInfoTree (FsEntry.dir "w2" true ⟨0, false⟩ (some []))
          0 10 [] false).type = ItemType.RepoDirectory) &&
        (getItemInfoTree (FsEntry.dir "w2" true ⟨0, false⟩ (some []))
          0 10 [] false).children.all (·.allPathsLeadToRepo)) :=
  c2_allPaths_characterisation _ 0 10 [] false 0 _ (SubnodeAt.here _)

/-- C3 (confirmed): in every tree produced by the Tree Builder, a node
whose children include one with `allPathsLeadToRepo = false` has the flag
false itself; and every `RepoDirectory` node with no children (which
includes repositories pruned by the skip set or the depth limit, and
repositories whose listing failed) has the flag true. -/
theorem c3_allPaths_aggregation (e : FsEntry) (cur m : Nat)
    (s : List String) (h : Bool) (k : Nat) (n : ItemInfo)
    (hs : SubnodeAt (getItemInfoTree e cur m s h) k n) :
    ((∃ c ∈ n.children, c.allPathsLeadToRepo = false) →
        n.allPathsLeadToRepo = false) ∧
    (n.type = ItemType.RepoDirectory → n.children = [] →
        n.allPathsLeadToRepo = true) := by
  obtain ⟨e1, rfl⟩ := subnodeAt_build hs
  constructor
  · rintro ⟨c, hcmem, hcfalse⟩
    rw [getItemInfoTree_allPathsLeadToRepo]
    have hall : (getItemInfoTree e1 (cur + k) m s h).children.all
        (·.allPathsLeadToRepo) = false := by
      rw [List.all_eq_false]
      exact ⟨c, hcmem, by simp [hcfalse]⟩
    rw [hall, Bool.and_false]
  · intro htype hchildren
    have hty : getItemType e1 = ItemType.RepoDirectory := by
      rw [← getItemInfoTree_type e1 (cur + k) m s h]
      exact htype
    rw [getItemInfoTree_allPathsLeadToRepo, hchildren, hty]
    simp

/-- Witness: `c3_allPaths_aggregation` applied to a concrete repository
directory pruned by the skip set — it still reports
`allPathsLeadToRepo = true`. -/
theorem c3_allPaths_aggregation_witness :
    (getItemInfoTree
      (FsEntry.dir "node_modules" true ⟨0, false⟩
        (some [FsEntry.file "x.txt"]))
      0 10 ["node_modules"] false).allPathsLeadToRepo = true :=
  (c3_allPaths_aggregation _ 0 10 ["node_modules"] false 0 _
      (SubnodeAt.here _)).2
    (by simp +decide [getItemInfoTree_type, getItemType])
    (by
      rw [getItemInfoTree_pruned _ _ _ _ _ _ _ _ (Or.inl (by simp))]
      rfl)

/-- Helper for C8: a node built at a depth at or past the limit has no
children (files never do; directories take the pruning branch). -/
theorem getItemInfoTree_children_of_maxDepth (e : FsEntry) (cur m : Nat)
    (s : List String) (h : Bool) (hcur : m ≤ cur) :
    (getItemInfoTree e cur m s h).children = [] := by
  cases e with
  | file n => rfl
  | dir n p st listing =>
    rw [getItemInfoTree_pruned n p st listing cur m s h (Or.inr hcur)]
    rfl

/-- C8 (confirmed): building from recursion depth 0 with depth limit `d`,
every node found at recursion depth `k ≥ d` has zero children — in
particular no node at depth strictly greater than `d` has a non-empty
children list. -/
theorem c8_depth_limit (e : FsEntry) (d : Nat) (s : List String) (h : Bool)
    (k : Nat) (n : ItemInfo)
    (hs : SubnodeAt (getItemInfoTree e 0 d s h) k n) (hk : d ≤ k) :
    n.children = [] := by
  obtain ⟨e1, rfl⟩ := subnodeAt_build hs
  exact getItemInfoTree_children_of_maxDepth e1 (0 + k) d s h (by omega)

/-- Witness: `c8_depth_limit` applied at depth limit 0 to a directory that
does have filesystem entries — the built root still has no children. -/
theorem c8_depth_limit_witness :
    (getItemInfoTree (FsEntry.dir "w8" false ⟨0, false⟩
        (some [FsEntry.file "f.txt"])) 0 0 [] false).children = [] :=
  c8_depth_limit _ 0 [] false 0 _ (SubnodeAt.here _) (Nat.le_refl 0)

/-- C9 (confirmed): a directory whose name is in the skip set is returned
with zero children regardless of its listing, while its kind, its
`allPathsLeadToRepo` / `containsRepo` flags and its git status are still
computed exactly as for any other node. -/
theorem c9_skip_set (n : String) (p : Bool) (st : GitStatus)
    (listing : Option (List FsEntry)) (cur m : Nat) (s : List String)
    (h : Bool) (hskip : n ∈ s) :
    (getItemInfoTree (.dir n p st listing) cur m s h).children = [] ∧
    (getItemInfoTree (.dir n p st listing) cur m s h).type =
      getItemType (.dir n p st listing) ∧
    (getItemInfoTree (.dir n p st listing) cur m s h).allPathsLeadToRepo =
      decide (getItemType (.dir n p st listing) = ItemType.RepoDirectory) ∧
    (getItemInfoTree (.dir n p st listing) cur m s h).containsRepo = false ∧
    (getItemInfoTree (.dir n p st listing) cur m s h).gitStatus =
      (if getItemType (.dir n p st listing) = ItemType.RepoDirectory then
        some st else none) := by
  rw [getItemInfoTree_pruned n p st listing cur m s h (Or.inl hskip)]
  exact ⟨rfl, rfl, rfl, rfl, rfl⟩

/-- Witness: `c9_skip_set` applied to a skipped repository directory with
a non-empty listing. -/
theorem c9_skip_set_witness :
    (getItemInfoTree (.dir "node_modules" true ⟨1, true⟩
        (some [FsEntry.file "y.txt"])) 0 10 ["node_modules"]
        false).children = [] ∧
    (getItemInfoTree (.dir "node_modules" true ⟨1, true⟩
        (some [FsEntry.file "y.txt"])) 0 10 ["node_modules"] false).type =
      getItemType (.dir "node_modules" true ⟨1, true⟩
        (some [FsEntry.file "y.txt"])) ∧
    (getItemInfoTree (.dir "node_modules" true ⟨1, true⟩
        (some [FsEntry.file "y.txt"])) 0 10 ["node_modules"]
        false).allPathsLeadToRepo =
      decide (getItemType (.dir "node_modules" true ⟨1, true⟩
        (some [FsEntry.file "y.txt"])) = ItemType.RepoDirectory) ∧
    (getItemInfoTree (.dir "node_modules" true ⟨1, true⟩
        (some [FsEntry.file "y.txt"])) 0 10 ["node_modules"]
        false).containsRepo = false ∧
    (getItemInfoTree (.dir "node_modules" true ⟨1, true⟩
        (some [FsEntry.file "y.txt"])) 0 10 ["node_modules"]
        false).gitStatus =
      (if getItemType (.dir "node_modules" true ⟨1, true⟩
          (some [FsEntry.file "y.txt"])) = ItemType.RepoDirectory then
        some ⟨1, true⟩ else none) :=
  c9_skip_set "node_modules" true ⟨1, true⟩ (some [FsEntry.file "y.txt"])
    0 10 ["node_modules"] false (by simp)

/-- C10 (confirmed): in every tree produced by the Tree Builder, a node
with `allPathsLeadToRepo = true` is necessarily of kind `RepoDirectory`:
the flag starts as `type == RepoDirectory` and processing children can
only force it to false. -/
theorem c10_allPaths_only_repo (e : FsEntry) (cur m : Nat)
    (s : List String) (h : Bool) (k : Nat) (n : ItemInfo)
    (hs : SubnodeAt (getItemInfoTree e cur m s h) k n)
    (hall : n.allPathsLeadToRepo = true) :
    n.type = ItemType.RepoDirectory := by
  obtain ⟨e1, rfl⟩ := subnodeAt_build hs
  rw [getItemInfoTree_allPathsLeadToRepo] at hall
  simp only [Bool.and_eq_true, decide_eq_true_eq] at hall
  rw [getItemInfoTree_type]
  exact hall.1

/-- Witness: `c10_allPaths_only_repo` applied to a concrete childless
repository node, whose flag evaluates to true. -/
theorem c10_allPaths_only_repo_witness :
    (getItemInfoTree (FsEntry.dir "w10" true ⟨0, false⟩ (some []))
      0 10 [] false).type = ItemType.RepoDirectory :=
  c10_allPaths_only_repo _ 0 10 [] false 0 _ (SubnodeAt.here _)
    (by simp +decide [getItemInfoTree, childItemInfos_nil, processChildren,
      initialItemInfo, getItemType])

/-- Translation of `formatRepoItem` in `src/format.ts`: a repository
renders red when dirty (working changes present, or not synced with its
remote), green when clean.  In the source `gitStatus?.aheadBy === 0` is
false when `gitStatus` is `undefined`, and `gitStatus?.hasWorkingChanges`
is falsy then as well. -/
def formatRepoItem (item : ItemInfo) : String :=
  let isSynced :=
    match item.gitStatus with
    | some gs => decide (gs.aheadBy = 0)
    | none => false
  let isDirty :=
    (match item.gitStatus with
      | some gs => gs.hasWorkingChanges
      | none => false) || !isSynced
  if isDirty then "\x1b[31m" ++ item.name ++ "\x1b[0m"
  else "\x1b[32m" ++ item.name ++ "\x1b[0m"

/-- Translation of `formatRepoLevelItem` in `src/format.ts` (used when the
node's `containsRepo` is true): black files, white directories,
status-coloured repositories, and an "(unknown item type)" suffix
otherwise. -/
def formatRepoLevelItem (item : ItemInfo) : String :=
  match item.type with
  | ItemType.File => "\x1b[30m" ++ item.name ++ "\x1b[0m"
  | ItemType.Directory => "\x1b[37m" ++ item.name ++ "\x1b[0m"
  | ItemType.RepoDirectory => formatRepoItem item
  | ItemType.Unknown => item.name ++ " (unknown item type)"

/-- Translation of `formatDefaultItem` in `src/format.ts`: black files,
everything else unstyled. -/
def formatDefaultItem (item : ItemInfo) : String :=
  match item.type with
  | ItemType.File => "\x1b[30m" ++ item.name ++ "\x1b[0m"
  | _ => item.name

/-- The formatted name `displayItemInfoTree` computes for a node
(`src/format.ts` lines 61–66). -/
def formattedName (root : ItemInfo) : String :=
  if root.containsRepo then formatRepoLevelItem root
  else formatDefaultItem root

mutual

/-- Translation of `displayItemInfoTree` in `src/format.ts`, as the list
of printed lines.  The node's own line is printed when the indent is
non-empty (`indent + prefix + name`), or when both the indent and the
prefix are empty (bare name); with an empty indent but a non-empty prefix
nothing is printed for the node itself.  Children then render with the
next indent (`│   ` continuation after a branch prefix, four spaces
otherwise), the last child with the corner glyph. -/
def displayItemInfoTree : ItemInfo → String → String → List String
  | i@⟨_, _, _, cs, _, _, _⟩, indent, pfx =>
    (if indent ≠ "" then [indent ++ pfx ++ formattedName i]
     else if pfx = "" then [formattedName i] else []) ++
      displayChildren cs
        (indent ++ (if pfx = "├── " then "│   " else "    "))

/-- The `forEach` over children in `displayItemInfoTree`: every non-last
child gets the branch glyph, the last child the corner glyph. -/
def displayChildren : List ItemInfo → String → List String
  | [], _ => []
  | [c], newIndent => displayItemInfoTree c newIndent "└── "
  | c :: rest, newIndent =>
      displayItemInfoTree c newIndent "├── " ++
        displayChildren rest newIndent

end

/-- Translation of the display phase of `showRepositoryTree`
(`src/repo_tree.ts` lines 256–264): when `root.isDirectory` is `true` and
the root has children, each child is displayed with an empty indent and
its own glyph prefix; otherwise the root itself is displayed with empty
indent and prefix.  Note the guard reads the OPTIONAL `isDirectory` field
of the built node (`undefined` is falsy), not the entry's flag. -/
def showRepositoryTreeLines (root : ItemInfo) : List String :=
  if root.isDirectory = some true ∧ 0 < root.children.length then
    displayChildren root.children ""
  else
    displayItemInfoTree root "" ""

/-- Unfolding equation for `displayItemInfoTree`. -/
theorem displayItemInfoTree_eq (i : ItemInfo) (indent pfx : String) :
    displayItemInfoTree i indent pfx =
      (if indent ≠ "" then [indent ++ pfx ++ formattedName i]
       else if pfx = "" then [formattedName i] else []) ++
        displayChildren i.children
          (indent ++ (if pfx = "├── " then "│   " else "    ")) := by
  cases i
  rw [displayItemInfoTree.eq_def]

/-- Unfolding equation: no children, no lines. -/
theorem displayChildren_nil (newIndent : String) :
    displayChildren [] newIndent = [] := by
  rw [displayChildren.eq_def]

/-- Unfolding equation for a single (hence last) child. -/
theorem displayChildren_single (c : ItemInfo) (newIndent : String) :
    displayChildren [c] newIndent =
      displayItemInfoTree c newIndent "└── " := by
  rw [displayChildren.eq_def]

/-- Unfolding equation for a non-last child. -/
theorem displayChildren_cons₂ (c d : ItemInfo) (rest : List ItemInfo)
    (newIndent : String) :
    displayChildren (c :: d :: rest) newIndent =
      displayItemInfoTree c newIndent "├── " ++
        displayChildren (d :: rest) newIndent := by
  rw [displayChildren.eq_def]

/-- C4 counterexample: a built root directory with exactly one child
(a file).  The claim says the root's own line is suppressed and the child
becomes a top-level line `└── …`.  Actually the first rendered line IS the
root's own name and the child is rendered indented under it: the builder
never assigns the optional `isDirectory` field, so the guard
`root.isDirectory && root.children.length > 0` in `showRepositoryTree` is
falsy and the single-node path runs. -/
theorem c4_counterexample :
    (getItemInfoTree (FsEntry.dir "root" false ⟨0, false⟩
        (some [FsEntry.file "a.txt"])) 0 10 [] false).children.length = 1 ∧
    showRepositoryTreeLines
      (getItemInfoTree (FsEntry.dir "root" false ⟨0, false⟩
        (some [FsEntry.file "a.txt"])) 0 10 [] false) =
      ["root", "    └── \x1b[30ma.txt\x1b[0m"] := by
  constructor <;>
    simp +decide [getItemInfoTree, childItemInfos_cons, childItemInfos_nil,
      processChildren, addChild, initialItemInfo, getItemType, FsEntry.name,
      FsEntry.status, jsStartsWith, charsMatchFront, showRepositoryTreeLines,
      displayItemInfoTree_eq, displayChildren_nil, displayChildren_single,
      formattedName, formatDefaultItem, formatRepoLevelItem, formatRepoItem]

/-- C4 (amended): the Tree Builder never assigns the optional
`isDirectory` field of the root node, so the renderer always takes the
single-node path: the root's own line is rendered first, without any
prefix, and each child is rendered beneath it with a four-space indent
and its own branch or corner glyph; when the root has no children the
root's line is the sole output. -/
theorem c4_root_rendering (e : FsEntry) (cur m : Nat) (s : List String)
    (h : Bool) :
    showRepositoryTreeLines (getItemInfoTree e cur m s h) =
      formattedName (getItemInfoTree e cur m s h) ::
        displayChildren (getItemInfoTree e cur m s h).children "    " ∧
    ((getItemInfoTree e cur m s h).children = [] →
      showRepositoryTreeLines (getItemInfoTree e cur m s h) =
        [formattedName (getItemInfoTree e cur m s h)]) := by
  have hdir := getItemInfoTree_isDirectory e cur m s h
  have hmain :
      showRepositoryTreeLines (getItemInfoTree e cur m s h) =
        formattedName (getItemInfoTree e cur m s h) ::
          displayChildren (getItemInfoTree e cur m s h).children "    " := by
    rw [showRepositoryTreeLines,
      if_neg (by rw [hdir]; rintro ⟨hc, -⟩; cases hc),
      displayItemInfoTree_eq]
    have hindent :
        ("" ++ (if ("" : String) = "├── " then "│   " else "    ")) =
          "    " := by decide
    rw [hindent]
    simp
  refine ⟨hmain, fun hnil => ?_⟩
  rw [hmain, hnil, displayChildren_nil]

/-- Witness: `c4_root_rendering` applied to a single-file root — the root
is rendered as the sole line. -/
theorem c4_root_rendering_witness :
    showRepositoryTreeLines (getItemInfoTree (FsEntry.file "solo.txt")
        0 10 [] false) =
      [formattedName (getItemInfoTree (FsEntry.file "solo.txt")
        0 10 [] false)] :=
  (c4_root_rendering (FsEntry.file "solo.txt") 0 10 [] false).2 rfl

/-- Kinds of filesystem errors, following the spec's error taxonomy
(`NotFound`, `PermissionDenied`, any other error). -/
inductive FsErrorKind where
  | notFound
  | permissionDenied
  | other
deriving DecidableEq, Repr

/-- Result of a `FileSystem.stat` call: the `{isDirectory, isFile}` pair
on success, or a thrown error of some kind. -/
inductive StatOutcome where
  | ok (isDirectory isFile : Bool)
  | err (kind : FsErrorKind)
deriving DecidableEq, Repr

/-- Model of path joining, `join(path, name)`. -/
def joinPath (a b : String) : String := a ++ "/" ++ b

/-- Translation of `testGitRepository` in `src/git.ts`: stat the `.git`
entry directly under `path` and report whether it is a directory; a
`NotFound` error from the stat is caught and yields `false`, every other
error is rethrown. -/
def testGitRepository (fsStat : String → StatOutcome) (path : String) :
    Except FsErrorKind Bool :=
  match fsStat (joinPath path ".git") with
  | .ok isDir _ => .ok isDir
  | .err .notFound => .ok false
  | .err k => .error k

/-- C7 (confirmed): `testGitRepository path` returns `true` iff the stat
of the `.git` entry directly under `path` reports a directory; a
`NotFound` stat error yields `false` rather than an error; and every
other filesystem error propagates to the caller unchanged. -/
theorem c7_testGitRepository (fsStat : String → StatOutcome)
    (path : String) :
    (testGitRepository fsStat path = .ok true ↔
      ∃ f, fsStat (joinPath path ".git") = .ok true f) ∧
    (fsStat (joinPath path ".git") = .err .notFound →
      testGitRepository fsStat path = .ok false) ∧
    (∀ k, k ≠ FsErrorKind.notFound →
      fsStat (joinPath path ".git") = .err k →
      testGitRepository fsStat path = .error k) := by
  cases hst : fsStat (joinPath path ".git") with
  | ok d f =>
    have hval : testGitRepository fsStat path = .ok d := by
      simp only [testGitRepository]
      rw [hst]
    refine ⟨?_, ?_, ?_⟩
    · rw [hval]
      simp
    · intro hne
      cases hne
    · intro k hk hke
      cases hke
  | err k0 =>
    cases k0 with
    | notFound =>
      have hval : testGitRepository fsStat path = .ok false := by
        simp only [testGitRepository]
        rw [hst]
      refine ⟨?_, fun _ => hval, ?_⟩
      · rw [hval]
        simp
      · intro k hk hke
        injection hke with h
        exact absurd h.symm hk
    | permissionDenied =>
      have hval : testGitRepository fsStat path =
          .error FsErrorKind.permissionDenied := by
        simp only [testGitRepository]
        rw [hst]
      refine ⟨?_, ?_, ?_⟩
      · rw [hval]
        simp
      · intro hne
        injection hne with h
        cases h
      · intro k hk hke
        injection hke with h
        rw [← h]
        exact hval
    | other =>
      have hval : testGitRepository fsStat path =
          .error FsErrorKind.other := by
        simp only [testGitRepository]
        rw [hst]
      refine ⟨?_, ?_, ?_⟩
      · rw [hval]
        simp
      · intro hne
        injection hne with h
        cases h
      · intro k hk hke
        injection hke with h
        rw [← h]
        exact hval

/-- Witness: `c7_testGitRepository` applied to a filesystem whose stat
always reports `NotFound`. -/
theorem c7_testGitRepository_witness :
    testGitRepository (fun _ => StatOutcome.err FsErrorKind.notFound)
      "/p" = .ok false :=
  (c7_testGitRepository (fun _ => StatOutcome.err FsErrorKind.notFound)
    "/p").2.1 rfl

/-- Character-list core of `jsIncludes`: does the second list occur as a
contiguous segment of the first? -/
def charsContain (s pat : List Char) : Bool :=
  match s with
  | [] => pat.isEmpty
  | c :: rest => charsMatchFront pat (c :: rest) || charsContain rest pat

/-- Model of JavaScript `String.prototype.includes`, computed on the
character list. -/
def jsIncludes (s pat : String) : Bool := charsContain s.data pat.data

/-- Model of JavaScript `String.prototype.trim`: whitespace stripped from
both ends, computed on the character list. -/
def jsTrim (s : String) : String :=
  ⟨((s.data.dropWhile Char.isWhitespace).reverse.dropWhile
      Char.isWhitespace).reverse⟩

/-- Character-list core of `jsSplit`. -/
def splitChars (sep : Char) : List Char → List (List Char)
  | [] => [[]]
  | c :: rest =>
    match splitChars sep rest with
    | [] => [[]]
    | cur :: done =>
        if c == sep then [] :: cur :: done else (c :: cur) :: done

/-- Model of JavaScript `String.prototype.split` with a single-character
separator. -/
def jsSplit (s : String) (sep : Char) : List String :=
  (splitChars sep s.data).map (fun cs => ⟨cs⟩)

namespace GitService

/-- Git status record of the `GitStatus` interface in `src/src/git.ts`:
`hasWorkingChanges`, plus the optional `hasUnpushedChanges` modelled as
`Option Bool` (`none` is JavaScript `undefined`). -/
structure GitStatus where
  hasWorkingChanges : Bool
  hasUnpushedChanges : Option Bool
deriving DecidableEq, Repr

/-- A JavaScript thrown value: an `Error` object carrying its message, or
any non-`Error` value carrying its string rendering.  `Error.isError`
distinguishes the two in the source's catch block. -/
inductive ThrownValue where
  | errorObject (message : String)
  | nonError (display : String)
deriving DecidableEq, Repr

/-- Result of `CommandRunner.runCommand`, from the `CommandResult`
interface in `src/src/command_runner.ts`. -/
structure CommandResult where
  stdout : String
  stderr : String
  success : Bool
  code : Int
deriving DecidableEq, Repr

/-- A command runner: arguments and working directory in, either a result
or a thrown value out. -/
abbrev Runner := List String → String → Except ThrownValue CommandResult

/-- The warning the try body logs when the status command wrote to
stderr (`src/src/git.ts` lines 166–170). -/
def statusWarns (repoPath : String) (statusOutput : CommandResult) :
    List String :=
  if 0 < statusOutput.stderr.length then
    ["Git status stderr for " ++ repoPath ++ ": " ++ statusOutput.stderr]
  else []

/-- The warnings after the rev-list command: its stderr is logged unless
it contains the no-upstream message (`src/src/git.ts` lines 188–192). -/
def revListWarns (repoPath : String) (warns1 : List String)
    (revListOutput : CommandResult) : List String :=
  if 0 < revListOutput.stderr.length &&
      !jsIncludes revListOutput.stderr
        "unknown revision or path not in the working tree" then
    warns1 ++
      ["Git rev-list stderr for " ++ repoPath ++ ": " ++
        revListOutput.stderr]
  else warns1

/-- Translation of the `try` body of `GitService.getGitStatus` in
`src/src/git.ts`: run `git status --porcelain=v1 --untracked-files=all`,
warn on stderr, count non-empty output lines as `hasWorkingChanges`; only
when there are no working changes run `git rev-list` against the upstream
(warning on stderr except for the no-upstream message) and set
`hasUnpushedChanges` from its trimmed stdout being non-empty — it stays
`undefined` when working changes exist.  The returned list collects the
warning messages emitted so far; a thrown value from either command
aborts the body. -/
def getGitStatusTry (runner : Runner) (repoPath : String) :
    Except ThrownValue GitStatus × List String :=
  match runner ["git", "status", "--porcelain=v1", "--untracked-files=all"]
      repoPath with
  | .error e => (.error e, [])
  | .ok statusOutput =>
    if 0 < ((jsSplit statusOutput.stdout '\n').filter
        (fun l => l ≠ "")).length then
      (.ok { hasWorkingChanges := true, hasUnpushedChanges := none },
        statusWarns repoPath statusOutput)
    else
      match runner ["git", "rev-list", "@\x7bupstream\x7d..HEAD"] repoPath with
      | .error e => (.error e, statusWarns repoPath statusOutput)
      | .ok revListOutput =>
        (.ok { hasWorkingChanges := false
               hasUnpushedChanges :=
                 some (decide (0 < (jsTrim revListOutput.stdout).length)) },
          revListWarns repoPath (statusWarns repoPath statusOutput)
            revListOutput)

/-- Translation of `GitService.getGitStatus` in `src/src/git.ts`: the try
body above wrapped in the catch block of lines 202–216 — a thrown `Error`
object is logged and degraded to `{hasWorkingChanges: false,
hasUnpushedChanges: false}`, while a thrown non-`Error` value is wrapped
in a new `Error` and rethrown. -/
def getGitStatus (runner : Runner) (repoPath : String) :
    Except ThrownValue (GitStatus × List String) :=
  match getGitStatusTry runner repoPath with
  | (.ok st, logs) => .ok (st, logs)
  | (.error (.errorObject msg), logs) =>
      .ok ({ hasWorkingChanges := false, hasUnpushedChanges := some false },
        logs ++ ["Error getting git status for " ++ repoPath ++ ": " ++ msg])
  | (.error (.nonError v), _) =>
      .error (.errorObject
        ("Unexpected error getting git status for " ++ repoPath ++ ": " ++ v))

end GitService

/-- Unfolding equation for the try body when the status command throws. -/
theorem getGitStatusTry_status_error (runner : GitService.Runner)
    (repoPath : String) (e : GitService.ThrownValue)
    (h : runner ["git", "status", "--porcelain=v1", "--untracked-files=all"]
      repoPath = .error e) :
    GitService.getGitStatusTry runner repoPath = (.error e, []) := by
  unfold GitService.getGitStatusTry
  rw [h]

/-- Unfolding equation for the try body when the status output has a
non-empty line: working changes, no rev-list call. -/
theorem getGitStatusTry_working (runner : GitService.Runner)
    (repoPath : String) (so : GitService.CommandResult)
    (h : runner ["git", "status", "--porcelain=v1", "--untracked-files=all"]
      repoPath = .ok so)
    (hl : 0 < ((jsSplit so.stdout '\n').filter (fun l => l ≠ "")).length) :
    GitService.getGitStatusTry runner repoPath =
      (.ok { hasWorkingChanges := true, hasUnpushedChanges := none },
        GitService.statusWarns repoPath so) := by
  unfold GitService.getGitStatusTry
  simp only [h]
  rw [if_pos hl]

/-- Unfolding equation for the try body when there are no working changes
and the rev-list command throws. -/
theorem getGitStatusTry_revlist_error (runner : GitService.Runner)
    (repoPath : String) (so : GitService.CommandResult)
    (e : GitService.ThrownValue)
    (h : runner ["git", "status", "--porcelain=v1", "--untracked-files=all"]
      repoPath = .ok so)
    (hl0 : ((jsSplit so.stdout '\n').filter (fun l => l ≠ "")).length = 0)
    (hrev : runner ["git", "rev-list", "@\x7bupstream\x7d..HEAD"] repoPath =
      .error e) :
    GitService.getGitStatusTry runner repoPath =
      (.error e, GitService.statusWarns repoPath so) := by
  unfold GitService.getGitStatusTry
  simp only [h]
  rw [hl0, if_neg (Nat.lt_irrefl 0)]
  simp only [hrev]

/-- Unfolding equation for the try body when there are no working changes
and the rev-list command returns: `hasUnpushedChanges` is assigned from
its trimmed stdout. -/
theorem getGitStatusTry_ok_noWorking (runner : GitService.Runner)
    (repoPath : String) (so ro : GitService.CommandResult)
    (h : runner ["git", "status", "--porcelain=v1", "--untracked-files=all"]
      repoPath = .ok so)
    (hl0 : ((jsSplit so.stdout '\n').filter (fun l => l ≠ "")).length = 0)
    (hrev : runner ["git", "rev-list", "@\x7bupstream\x7d..HEAD"] repoPath =
      .ok ro) :
    GitService.getGitStatusTry runner repoPath =
      (.ok { hasWorkingChanges := false
             hasUnpushedChanges :=
               some (decide (0 < (jsTrim ro.stdout).length)) },
        GitService.revListWarns repoPath
          (GitService.statusWarns repoPath so) ro) := by
  unfold GitService.getGitStatusTry
  simp only [h]
  rw [hl0, if_neg (Nat.lt_irrefl 0)]
  simp only [hrev]

/-- Helper for C6: whenever the try body returns a status, that status has
`hasUnpushedChanges = none` exactly when `hasWorkingChanges` is true, and
some defined boolean when it is false. -/
theorem getGitStatusTry_ok_shape (runner : GitService.Runner)
    (repoPath : String) (st : GitService.GitStatus) (logs : List String)
    (htry : GitService.getGitStatusTry runner repoPath = (.ok st, logs)) :
    (st.hasWorkingChanges = true → st.hasUnpushedChanges = none) ∧
    (st.hasWorkingChanges = false → ∃ b, st.hasUnpushedChanges = some b) := by
  cases h1 : runner ["git", "status", "--porcelain=v1",
      "--untracked-files=all"] repoPath with
  | error e =>
    rw [getGitStatusTry_status_error runner repoPath e h1] at htry
    simp at htry
  | ok so =>
    by_cases hl : 0 < ((jsSplit so.stdout '\n').filter
        (fun l => l ≠ "")).length
    · rw [getGitStatusTry_working runner repoPath so h1 hl] at htry
      injection htry with h2 h3
      injection h2 with h4
      subst h4
      exact ⟨fun _ => rfl, fun hf => by simp at hf⟩
    · have hl0 := Nat.eq_zero_of_not_pos hl
      cases h2 : runner ["git", "rev-list", "@\x7bupstream\x7d..HEAD"]
          repoPath with
      | error e =>
        rw [getGitStatusTry_revlist_error runner repoPath so e h1 hl0 h2]
          at htry
        simp at htry
      | ok ro =>
        rw [getGitStatusTry_ok_noWorking runner repoPath so ro h1 hl0 h2]
          at htry
        injection htry with h3 h4
        injection h3 with h5
        subst h5
        exact ⟨fun ht => by simp at ht, fun _ => ⟨_, rfl⟩⟩

/-- C5 counterexample: a runner whose git invocation throws a non-`Error`
value (JavaScript allows throwing any value).  The catch block in
`src/src/git.ts` lines 202–216 only degrades values for which
`Error.isError` holds; this one is wrapped in a new `Error` and rethrown,
so `getGitStatus` propagates a failure instead of returning a clean
status — refuting "status computation never aborts the tree walk by
throwing, for any kind of thrown value". -/
theorem c5_counterexample :
    GitService.getGitStatus
      (fun _ _ => .error (.nonError "boom")) "/repo" =
      .error (.errorObject
        "Unexpected error getting git status for /repo: boom") := by
  rfl

/-- C5 (amended): a git subprocess failure thrown as an `Error` object is
caught, an error message is logged, and the status operation returns a
clean status (`hasWorkingChanges = false`, `hasUnpushedChanges = false`)
instead of propagating; but a thrown non-`Error` value is NOT degraded —
it is rethrown wrapped in a new `Error`, so status computation can abort
for such values. -/
theorem c5_error_handling (runner : GitService.Runner) (repoPath : String) :
    (∀ msg logs,
      GitService.getGitStatusTry runner repoPath =
        (.error (.errorObject msg), logs) →
      GitService.getGitStatus runner repoPath =
        .ok ({ hasWorkingChanges := false, hasUnpushedChanges := some false },
          logs ++
            ["Error getting git status for " ++ repoPath ++ ": " ++ msg])) ∧
    (∀ v logs,
      GitService.getGitStatusTry runner repoPath =
        (.error (.nonError v), logs) →
      GitService.getGitStatus runner repoPath =
        .error (.errorObject
          ("Unexpected error getting git status for " ++ repoPath ++ ": " ++
            v))) := by
  constructor
  · intro msg logs htry
    unfold GitService.getGitStatus
    rw [htry]
  · intro v logs htry
    unfold GitService.getGitStatus
    rw [htry]

/-- Witness: `c5_error_handling` applied to a runner that throws an
`Error` object — the status degrades to clean and the failure is
logged. -/
theorem c5_error_handling_witness :
    GitService.getGitStatus
      (fun _ _ => .error (.errorObject "fail")) "/r" =
      .ok ({ hasWorkingChanges := false, hasUnpushedChanges := some false },
        ["Error getting git status for /r: fail"]) :=
  (c5_error_handling (fun _ _ => .error (.errorObject "fail")) "/r").1
    "fail" [] rfl

/-- C6 counterexample: a repository with no working changes and no
configured upstream.  The status command returns empty output; the
rev-list command then fails with the no-upstream message on stderr and
empty stdout (the Process Runner does not throw for a non-zero exit).
`hasUnpushedChanges` is assigned unconditionally after the rev-list call
(`src/src/git.ts` line 194), so it comes back as the defined boolean
`false` — not left undefined as the claim states. -/
theorem c6_counterexample :
    GitService.getGitStatus
      (fun args _ =>
        if args = ["git", "status", "--porcelain=v1", "--untracked-files=all"]
        then .ok ⟨"", "", true, 0⟩
        else .ok ⟨"",
          "fatal: unknown revision or path not in the working tree",
          false, 128⟩)
      "/repo" =
      .ok ({ hasWorkingChanges := false, hasUnpushedChanges := some false },
        []) ∧
    (some false ≠ (none : Option Bool)) := by
  constructor
  · rfl
  · simp

/-- C6 (amended): `hasUnpushedChanges` is computed only when
`hasWorkingChanges` is false, and is left undefined exactly when working
changes exist; but whenever there are no working changes the field is
always assigned a defined boolean (the trimmed rev-list stdout being
non-empty) — in particular, with no upstream configured the rev-list
stdout is empty and the field becomes `false`, not undefined. -/
theorem c6_unpushed_changes (runner : GitService.Runner)
    (repoPath : String) :
    (∀ st logs, GitService.getGitStatus runner repoPath = .ok (st, logs) →
      (st.hasWorkingChanges = true → st.hasUnpushedChanges = none) ∧
      (st.hasWorkingChanges = false → ∃ b, st.hasUnpushedChanges = some b)) ∧
    (∀ so ro,
      runner ["git", "status", "--porcelain=v1", "--untracked-files=all"]
        repoPath = .ok so →
      ((jsSplit so.stdout '\n').filter (fun l => l ≠ "")).length = 0 →
      runner ["git", "rev-list", "@\x7bupstream\x7d..HEAD"] repoPath =
        .ok ro →
      ∃ logs, GitService.getGitStatus runner repoPath =
        .ok ({ hasWorkingChanges := false
               hasUnpushedChanges :=
                 some (decide (0 < (jsTrim ro.stdout).length)) },
          logs)) := by
  constructor
  · intro st logs hok
    rcases htry : GitService.getGitStatusTry runner repoPath with ⟨res, logs0⟩
    unfold GitService.getGitStatus at hok
    rw [htry] at hok
    cases res with
    | ok st0 =>
      replace hok : Except.ok (st0, logs0) = Except.ok (st, logs) := hok
      injection hok with h2
      injection h2 with h3 h4
      subst h3
      exact getGitStatusTry_ok_shape runner repoPath st0 logs0 htry
    | error e =>
      cases e with
      | errorObject msg =>
        replace hok :
            Except.ok
              (({ hasWorkingChanges := false,
                  hasUnpushedChanges := some false } : GitService.GitStatus),
                logs0 ++
                  ["Error getting git status for " ++ repoPath ++ ": " ++
                    msg]) = Except.ok (st, logs) := hok
        injection hok with h2
        injection h2 with h3 h4
        subst h3
        exact ⟨fun ht => by simp at ht, fun _ => ⟨false, rfl⟩⟩
      | nonError v =>
        replace hok :
            (Except.error (GitService.ThrownValue.errorObject
                ("Unexpected error getting git status for " ++ repoPath ++
                  ": " ++ v)) :
              Except GitService.ThrownValue
                (GitService.GitStatus × List String)) =
              Except.ok (st, logs) := hok
        exact Except.noConfusion hok
  · intro so ro hstatus hl0 hrev
    refine ⟨GitService.revListWarns repoPath
      (GitService.statusWarns repoPath so) ro, ?_⟩
    unfold GitService.getGitStatus
    rw [getGitStatusTry_ok_noWorking runner repoPath so ro hstatus hl0 hrev]

/-- Witness: `c6_unpushed_changes` applied to a runner where both
commands succeed with empty output — `hasUnpushedChanges` comes back as a
defined boolean. -/
theorem c6_unpushed_changes_witness :
    ∃ logs, GitService.getGitStatus
      (fun _ _ => .ok ⟨"", "", true, 0⟩) "/r" =
      .ok ({ hasWorkingChanges := false
             hasUnpushedChanges :=
               some (decide (0 < (jsTrim ("" : String)).length)) },
        logs) :=
  (c6_unpushed_changes (fun _ _ => .ok ⟨"", "", true, 0⟩) "/r").2
    ⟨"", "", true, 0⟩ ⟨"", "", true, 0⟩ rfl (by decide) rfl

end RepoTree
